import Mathlib

/-!
Verification of the amdinfer inference server against its specification.

Each section embeds one part of the C++ source as executable Lean
definitions (structures for the data model, functions for the operations)
and proves the specification's claims about them.  Machine integers are
modelled as `Nat` with explicit reduction modulo `2 ^ 32` where the C++
uses `uint32_t`; buffers are modelled as lists of byte values; fallible
operations return `Except`.
-/

namespace AmdInfer

/-- Tensor element types, from `core/data_types.hpp`.  Only the kinds the
claims exercise are listed. -/
inductive DataType where
  | Uint32
  | Int32
  | Fp32
  deriving DecidableEq, Repr, Inhabited

/-- One input tensor of an inference request: name, shape, datatype and the
tensor data, modelled as the list of `uint32` words in its buffer. -/
structure InferenceRequestInput where
  name : String
  shape : List Nat
  datatype : DataType
  data : List Nat
  deriving DecidableEq, Repr, Inhabited

/-- One requested output tensor of an inference request (only its name is
consulted by the Echo worker). -/
structure InferenceRequestOutput where
  name : String
  deriving DecidableEq, Repr, Inhabited

/-- An inference request: id, input tensors and optional requested outputs,
from `core/inference_request.hpp`. -/
structure InferenceRequest where
  id : String
  inputs : List InferenceRequestInput
  outputs : List InferenceRequestOutput
  deriving DecidableEq, Repr, Inhabited

/-- One output tensor of an inference response. -/
structure InferenceResponseOutput where
  name : String
  datatype : DataType
  shape : List Nat
  data : List Nat
  deriving DecidableEq, Repr, Inhabited

/-- An inference response: id, model name and output tensors. -/
structure InferenceResponse where
  id : String
  model : String
  outputs : List InferenceResponseOutput
  deriving DecidableEq, Repr, Inhabited

/-- `2 ^ 32`, the modulus of `uint32_t` arithmetic. -/
def uint32Mod : Nat := 2 ^ 32

/-! ## The Echo worker (`workers/echo.cpp`, `Echo::doRun`)

`Echo::doRun` processes each request of a batch independently: for every
input tensor it reads the leading `uint32_t`, increments it, and appends a
`Uint32` output tensor of shape `[1]` to the response.  The output tensor's
name is the corresponding requested output's name when that is present and
non-empty, and the first input tensor's name otherwise. -/

/-- The name of the `i`-th requested output, or `""` when there are fewer
than `i + 1` requested outputs (`if (i < outputs.size()) output_name =
outputs[i].getName();` with `output_name` initialised empty). -/
def echoRequestedName (outputs : List InferenceRequestOutput) (i : Nat) : String :=
  match outputs[i]? with
  | some o => o.name
  | none => ""

/-- Reading `*static_cast<uint32_t*>(input_buffer)`: the first word of the
input tensor's data. -/
def echoReadInput (input : InferenceRequestInput) : Nat :=
  input.data.headI

/-- The output tensor the Echo worker appends for input `i` of `req`:
value incremented modulo `2 ^ 32`, dtype `Uint32`, shape `[1]`, named after
the requested output when non-empty and after `inputs[0]` otherwise. -/
def echoMakeOutput (req : InferenceRequest) (i : Nat) : InferenceResponseOutput :=
  let value := (echoReadInput (req.inputs.getD i default) + 1) % uint32Mod
  let requested := echoRequestedName req.outputs i
  { name := if requested = "" then req.inputs.headI.name else requested
    datatype := DataType.Uint32
    shape := [1]
    data := [value] }

/-- The response `Echo::doRun` produces for one request: id copied, model
`"echo"`, one output per input tensor. -/
def echoDoRunRequest (req : InferenceRequest) : InferenceResponse :=
  { id := req.id
    model := "echo"
    outputs := (List.range req.inputs.length).map (echoMakeOutput req) }

/-- Claim C1: for the echo worker, a request carrying a single uint32 input
tensor with value `v` produces a response with exactly one output tensor of
dtype `Uint32` and shape `[1]` whose value is `v + 1`, carrying the same
name as the input tensor. -/
theorem echo_single_uint32 (nm id : String) (v : Nat) (h : v + 1 < 2 ^ 32) :
    echoDoRunRequest
        { id := id
          inputs := [{ name := nm, shape := [1], datatype := DataType.Uint32, data := [v] }]
          outputs := [] }
      = { id := id
          model := "echo"
          outputs := [{ name := nm, datatype := DataType.Uint32, shape := [1],
                        data := [v + 1] }] } := by
  have hmod : (v + 1) % uint32Mod = v + 1 := Nat.mod_eq_of_lt h
  have hr : List.range 1 = [0] := rfl
  simp [echoDoRunRequest, echoMakeOutput, echoRequestedName, echoReadInput, hr, hmod]

/-- Witness for C1: scenario S1 of the spec, input value 41 gives output
value 42. -/
theorem echo_single_uint32_witness :
    echoDoRunRequest
        { id := "1"
          inputs := [{ name := "in", shape := [1], datatype := DataType.Uint32, data := [41] }]
          outputs := [] }
      = { id := "1"
          model := "echo"
          outputs := [{ name := "in", datatype := DataType.Uint32, shape := [1],
                        data := [42] }] } :=
  echo_single_uint32 "in" "1" 41 (by norm_num)

/-- Claim C10: for every request processed by the Echo worker with two or
more input tensors whose requested outputs are absent or have empty names,
every produced output tensor is named after the first input tensor
`inputs[0]`, not after the input it was computed from. -/
theorem echo_output_named_after_first_input (req : InferenceRequest)
    (_h2 : 2 ≤ req.inputs.length)
    (hout : ∀ o ∈ req.outputs, o.name = "") :
    ∀ out ∈ (echoDoRunRequest req).outputs, out.name = req.inputs.headI.name := by
  intro out hmem
  simp only [echoDoRunRequest, List.mem_map, List.mem_range] at hmem
  obtain ⟨i, _hi, rfl⟩ := hmem
  have hreq : echoRequestedName req.outputs i = "" := by
    unfold echoRequestedName
    cases hq : req.outputs[i]? with
    | none => rfl
    | some o => exact hout o (List.getElem?_mem hq)
  simp [echoMakeOutput, hreq]

/-- Witness for C10: a two-input request with distinct tensor names and no
requested outputs; the second response output is also named `"a"`, the
first input's name. -/
theorem echo_output_named_after_first_input_witness :
    ((echoDoRunRequest
        { id := ""
          inputs := [{ name := "a", shape := [1], datatype := DataType.Uint32, data := [1] },
                     { name := "b", shape := [1], datatype := DataType.Uint32, data := [2] }]
          outputs := [] }).outputs.getD 1 default).name = "a" :=
  echo_output_named_after_first_input
    { id := ""
      inputs := [{ name := "a", shape := [1], datatype := DataType.Uint32, data := [1] },
                 { name := "b", shape := [1], datatype := DataType.Uint32, data := [2] }]
      outputs := [] }
    (by decide) (by simp)
    _ (by decide)

/-! ## The echo_multi model (`models/echo_multi.cpp`, `run`)

`run` concatenates, per request, the words of the `kInputTensors` input
tensors (reading `kInputLengths[i]` words from input `i`) into `args`, then
fills the `kOutputTensors` output tensors of lengths `kOutputLengths[i]` by
replaying `args` cyclically: a single running index `input_index` is
incremented modulo `input_num = sum kInputLengths` across all outputs. -/

/-- `kInputLengths` from `echo_multi.cpp`. -/
def kInputLengths : List Nat := [1, 2]

/-- `kOutputLengths` from `echo_multi.cpp`. -/
def kOutputLengths : List Nat := [1, 4, 3]

/-- `input_num = containerSum(kInputLengths)`. -/
def inputNum : Nat := kInputLengths.sum

/-- The concatenated argument list: for each input tensor `i`, the first
`kInputLengths[i]` words of its buffer. -/
def echoMultiArgs (inputs : List (List Nat)) : List Nat :=
  (List.range kInputLengths.length).flatMap fun i =>
    (List.range (kInputLengths.getD i 0)).map fun k => (inputs.getD i []).getD k 0

/-- Filling the output tensors of the given lengths, replaying `args`
cyclically from running index `idx` (`args[input_index]` with
`input_index = (input_index + 1) % input_num` after every element). -/
def echoMultiFill (args : List Nat) : List Nat → Nat → List (List Nat)
  | [], _ => []
  | len :: rest, idx =>
    ((List.range len).map fun k => args.getD ((idx + k) % inputNum) 0)
      :: echoMultiFill args rest ((idx + len) % inputNum)

/-- The output tensor values `run` produces for one request whose input
buffers are `inputs`. -/
def echoMultiRunRequest (inputs : List (List Nat)) : List (List Nat) :=
  echoMultiFill (echoMultiArgs inputs) kOutputLengths 0

/-- The output tensor descriptors `getOutputs` declares in
`echo_multi.cpp`: names `output0..2`, dtype `Uint32`, shapes from
`kOutputLengths`. -/
def echoMultiGetOutputs : List (String × DataType × List Nat) :=
  (List.range kOutputLengths.length).map fun i =>
    ("output" ++ toString i, DataType.Uint32, [kOutputLengths.getD i 0])

/-- Claim C3: for the echo_multi model, input tensors `[10]` and `[20, 30]`
produce three `Uint32` output tensors of shapes `[1]`, `[4]`, `[3]` whose
values replay the concatenated sequence `[10, 20, 30]` cyclically:
`[10]`, `[20, 30, 10, 20]`, `[30, 10, 20]`. -/
theorem echo_multi_fanout :
    echoMultiRunRequest [[10], [20, 30]] = [[10], [20, 30, 10, 20], [30, 10, 20]]
    ∧ echoMultiGetOutputs
      = [("output0", DataType.Uint32, [1]), ("output1", DataType.Uint32, [4]),
         ("output2", DataType.Uint32, [3])] := by
  constructor
  · rfl
  · rfl

/-! ## `inferAsyncOrderedBatched` (`clients/client.cpp`)

The client helper submits requests in windows of `batch_size` via
`modelInferAsync`, pushing the returned futures onto a queue, then drains
the queue window by window.  Futures are modelled by the index of the
submitted request, and `future.get()` by an abstract response function
`resp` applied to that index.  Popping the front of an *empty* queue —
undefined behaviour in C++ — aborts the model with `emptyQueuePop`,
carrying the indices submitted up to that point. -/

/-- How a run of the modelled client helper can abort. -/
inductive ClientAbort where
  | emptyQueuePop (submitted : List Nat)
  | outOfFuel
  deriving DecidableEq, Repr

/-- The mutable state of `inferAsyncOrderedBatched`: the accumulated
responses, the future queue (front at the head), and — for the proofs —
the trace of submitted request indices. -/
structure ClientState (ρ : Type) where
  responses : List ρ
  q : List Nat
  submitted : List Nat
  deriving Repr

/-- The submission loop `for (i = lo; i < hi; ++i)
q.push(modelInferAsync(requests[i]))`: pushes the futures for indices
`[lo, hi)` (none when `lo ≥ hi`). -/
def submitWindow (st : ClientState ρ) (lo hi : Nat) : ClientState ρ :=
  { st with
    q := st.q ++ List.range' lo (hi - lo)
    submitted := st.submitted ++ List.range' lo (hi - lo) }

/-- The collection loop: `count` times, `q.front().get()` then `q.pop()`.
Popping an empty queue is the C++ undefined behaviour and aborts. -/
def collectWindow (resp : Nat → ρ) : Nat → ClientState ρ → Except ClientAbort (ClientState ρ)
  | 0, st => .ok st
  | count + 1, st =>
    match st.q with
    | [] => .error (.emptyQueuePop st.submitted)
    | f :: rest =>
      collectWindow resp count
        { st with responses := st.responses ++ [resp f], q := rest }

/-- The `while (start_index + batch_size < num_requests)` loop of
`inferAsyncOrderedBatched`: submit `for (i = start_index; i <
batch_size; ++i)` (the source text, verbatim), collect `batch_size`
futures, advance `start_index` by `batch_size`.  `fuel` bounds the
iteration count; `n + 1` iterations always suffice when `batch_size ≥ 1`. -/
def clientWindowLoop (resp : Nat → ρ) (n bs : Nat) :
    Nat → Nat → ClientState ρ → Except ClientAbort (Nat × ClientState ρ)
  | 0, _, _ => .error .outOfFuel
  | fuel + 1, start, st =>
    if start + bs < n then
      match collectWindow resp bs (submitWindow st start bs) with
      | .error e => .error e
      | .ok st2 => clientWindowLoop resp n bs fuel (start + bs) st2
    else
      .ok (start, st)

/-- `inferAsyncOrderedBatched(client, model, requests, batch_size)` for `n`
requests: the windowed loop followed by the tail that submits
`for (i = start_index; i < num_requests; ++i)` and collects
`num_requests - start_index` futures.  Returns the responses and the
submission trace. -/
def inferAsyncOrderedBatched (resp : Nat → ρ) (n bs : Nat) :
    Except ClientAbort (List ρ × List Nat) :=
  match clientWindowLoop resp n bs (n + 1) 0 ⟨[], [], []⟩ with
  | .error e => .error e
  | .ok (start, st) =>
    if start ≠ n then
      match collectWindow resp (n - start) (submitWindow st start n) with
      | .error e => .error e
      | .ok st2 => .ok (st2.responses, st2.submitted)
    else
      .ok (st.responses, st.submitted)

/-- Claim C2 fails on the code: with 3 requests and `batch_size = 1`, the
first window submits request 0 only (`for (i = start_index; i <
batch_size)` submits nothing once `start_index ≥ batch_size`), and the
second window pops the front of an empty future queue — requests 1 and 2
are never submitted and no list of 3 ordered responses is produced. -/
theorem inferAsyncOrderedBatched_drops_requests :
    inferAsyncOrderedBatched (fun i => i) 3 1 = .error (.emptyQueuePop [0]) := by
  rfl

/-! ## HTTP client inference submission (`clients/http.cpp`)

`HttpClient::modelInfer` and `HttpClient::modelInferAsync` both begin by
calling `createInferenceRequest`, which throws `invalid_argument` when the
request's inputs are empty, *before* `sendRequest` is reached.  The wire
payload is modelled as the pair (path, request); the server interaction is
abstracted as a function from payloads to responses.  Each operation
returns, next to its result, the list of payloads actually sent — empty
exactly when nothing reached the server (hence no batch can be formed for
the request). -/

/-- Client-side error kinds thrown by the HTTP client. -/
inductive ClientError where
  | invalidArgument (msg : String)
  | badStatus (msg : String)
  deriving DecidableEq, Repr

/-- An HTTP POST payload: target path and the inference request mapped
into the body. -/
structure HttpPost where
  path : String
  request : InferenceRequest
  deriving DecidableEq, Repr

/-- `createInferenceRequest` from `clients/http.cpp`: throws
`invalid_argument` on empty inputs, otherwise builds the POST request to
`/v2/models/<model>/infer`. -/
def createInferenceRequest (model : String) (req : InferenceRequest) :
    Except ClientError HttpPost :=
  if req.inputs.isEmpty then
    .error (.invalidArgument "The request's inputs cannot be empty")
  else
    .ok ⟨"/v2/models/" ++ model ++ "/infer", req⟩

/-- `HttpClient::modelInfer`: build the POST payload, send it, map the
response.  Returns the result and the payloads sent. -/
def modelInfer (send : HttpPost → InferenceResponse) (model : String)
    (req : InferenceRequest) :
    Except ClientError InferenceResponse × List HttpPost :=
  match createInferenceRequest model req with
  | .error e => (.error e, [])
  | .ok post => (.ok (send post), [post])

/-- `HttpClient::modelInferAsync`: identical submission path; the future's
eventual value is the sent payload's response. -/
def modelInferAsync (send : HttpPost → InferenceResponse) (model : String)
    (req : InferenceRequest) :
    Except ClientError InferenceResponse × List HttpPost :=
  match createInferenceRequest model req with
  | .error e => (.error e, [])
  | .ok post => (.ok (send post), [post])

/-- Claim C4: for every inference request with an empty inputs list,
`modelInfer` and `modelInferAsync` fail with `invalid_argument` at
submission time and send nothing to the server (so no batch is ever formed
for the request). -/
theorem modelInfer_empty_inputs (send send2 : HttpPost → InferenceResponse)
    (model : String) (req : InferenceRequest) (h : req.inputs = []) :
    modelInfer send model req
        = (.error (.invalidArgument "The request's inputs cannot be empty"), [])
    ∧ modelInferAsync send2 model req
        = (.error (.invalidArgument "The request's inputs cannot be empty"), []) := by
  constructor <;>
    simp [modelInfer, modelInferAsync, createInferenceRequest, h]

/-- Witness for C4: a concrete empty-input request fails with
`invalid_argument` and nothing is sent. -/
theorem modelInfer_empty_inputs_witness :
    modelInfer (fun _ => default) "echo" { id := "1", inputs := [], outputs := [] }
        = (.error (.invalidArgument "The request's inputs cannot be empty"), [])
    ∧ modelInferAsync (fun _ => default) "echo" { id := "1", inputs := [], outputs := [] }
        = (.error (.invalidArgument "The request's inputs cannot be empty"), []) :=
  modelInfer_empty_inputs (fun _ => default) (fun _ => default) "echo"
    { id := "1", inputs := [], outputs := [] } rfl

/-! ## `parseModel` (`core/model_repository.cpp`)

After reading the model's `config.pbtxt`, `parseModel` dispatches on
`config.platform()` to set the `"worker"` and `"model"` parameters, and
throws `invalid_argument` for any other platform string.  The file-system
and protobuf steps are outside the dispatch the claim is about; the
dispatch itself is embedded verbatim over the parsed platform string and
the precomputed `model_base` path. -/

/-- Error kinds `parseModel` can throw. -/
inductive RepoError where
  | fileNotFound (msg : String)
  | fileRead (msg : String)
  | invalidArgument (msg : String)
  deriving DecidableEq, Repr

/-- The platform dispatch of `parseModel`: given `model_base` and the
config's platform, the `("worker", "model")` parameter values it sets, or
the `invalid_argument` error for an unknown platform. -/
def parseModelPlatform (modelBase platform : String) :
    Except RepoError (String × String) :=
  if platform = "tensorflow_graphdef" then .ok ("tfzendnn", modelBase ++ ".pb")
  else if platform = "pytorch_torchscript" then .ok ("ptzendnn", modelBase ++ ".pt")
  else if platform = "onnx_onnxv1" then .ok ("migraphx", modelBase ++ ".onnx")
  else if platform = "migraphx_mxr" then .ok ("migraphx", modelBase ++ ".mxr")
  else if platform = "vitis_xmodel" then .ok ("xmodel", modelBase ++ ".xmodel")
  else .error (.invalidArgument ("Unknown platform: " ++ platform))

/-- The platform strings `parseModel` accepts. -/
def knownPlatforms : List String :=
  ["tensorflow_graphdef", "pytorch_torchscript", "onnx_onnxv1", "migraphx_mxr",
   "vitis_xmodel"]

/-- Claim C5: `parseModel` sets the `"worker"` parameter per the platform
mapping `tensorflow_graphdef → tfzendnn`, `pytorch_torchscript → ptzendnn`,
`onnx_onnxv1 → migraphx`, `migraphx_mxr → migraphx`,
`vitis_xmodel → xmodel`, and fails with `invalid_argument` for every other
platform value. -/
theorem parseModel_platform_mapping (base p : String) :
    ((parseModelPlatform base "tensorflow_graphdef").map Prod.fst = .ok "tfzendnn"
      ∧ (parseModelPlatform base "pytorch_torchscript").map Prod.fst = .ok "ptzendnn"
      ∧ (parseModelPlatform base "onnx_onnxv1").map Prod.fst = .ok "migraphx"
      ∧ (parseModelPlatform base "migraphx_mxr").map Prod.fst = .ok "migraphx"
      ∧ (parseModelPlatform base "vitis_xmodel").map Prod.fst = .ok "xmodel")
    ∧ (p ∉ knownPlatforms →
        parseModelPlatform base p
          = .error (.invalidArgument ("Unknown platform: " ++ p))) := by
  refine ⟨⟨rfl, rfl, rfl, rfl, rfl⟩, fun hp => ?_⟩
  simp only [knownPlatforms, List.mem_cons, List.not_mem_nil, or_false,
    not_or] at hp
  obtain ⟨h1, h2, h3, h4, h5⟩ := hp
  simp [parseModelPlatform, h1, h2, h3, h4, h5]

/-- Witness for C5: the unknown platform `"tensorflow_savedmodel"` is
rejected with `invalid_argument`. -/
theorem parseModel_platform_mapping_witness :
    (parseModelPlatform "m/1/saved_model" "tensorflow_graphdef").map Prod.fst
        = .ok "tfzendnn"
    ∧ parseModelPlatform "m/1/saved_model" "tensorflow_savedmodel"
        = .error (.invalidArgument ("Unknown platform: " ++ "tensorflow_savedmodel")) :=
  ⟨(parseModel_platform_mapping "m/1/saved_model" "tensorflow_savedmodel").1.1,
   (parseModel_platform_mapping "m/1/saved_model" "tensorflow_savedmodel").2
     (by decide)⟩

/-! ## `Buffer::write` (`buffers/buffer.hpp`)

The templated `Buffer::write(T value, size_t offset)` has two branches.
For `std::string` it copies the characters to `data(offset)`, writes a
single `'\0'` byte at `data(offset) + length`, and returns
`offset + length + 1` — all in the header.  For every other `T` it calls
the virtual byte-level `write(&value, offset, sizeof(T))`.  Buffers are
modelled as lists of byte values, and a value of type `T` by its
`sizeof(T)`-byte encoding. -/

/-- `memcpy`-at-offset on a byte-list buffer: overwrite the bytes at
`[offset, offset + data.length)`, leave the rest unchanged. -/
def listWriteAt (buf : List Nat) (offset : Nat) (data : List Nat) : List Nat :=
  buf.take offset ++ data ++ buf.drop (offset + data.length)

/-- Modelled from the spec: the body of the virtual byte-level
`Buffer::write(void* data, size_t offset, size_t size)` is not under
`src/` (only its declaration in `buffers/buffer.hpp` is).  Per the spec
(`write(value, offset) → new offset`) it copies the bytes at `offset` and
returns the offset advanced by the number of bytes written. -/
def bufferWriteBytes (buf : List Nat) (data : List Nat) (offset : Nat) :
    List Nat × Nat :=
  (listWriteAt buf offset data, offset + data.length)

/-- The `std::string` branch of `Buffer::write`: `std::copy` of the
characters to `data(offset)`, `memcpy` of the null terminator to
`data(offset) + length`, returning `offset + value.length() + 1`. -/
def bufferWriteString (buf : List Nat) (value : List Nat) (offset : Nat) :
    List Nat × Nat :=
  let b1 := listWriteAt buf offset value
  let b2 := listWriteAt b1 (offset + value.length) [0]
  (b2, offset + value.length + 1)

/-- The non-string branch of `Buffer::write`: `this->write(&value, offset,
sizeof(T))` on the `sizeof(T)`-byte encoding of the value. -/
def bufferWriteVal (buf : List Nat) (bytes : List Nat) (offset : Nat) :
    List Nat × Nat :=
  bufferWriteBytes buf bytes offset

/-- Claim C6: writing a string `value` at `offset` places its characters at
`[offset, offset + length)`, a null terminator immediately after them, the
rest of the buffer unchanged, and returns `offset + length + 1`; writing a
non-string value of byte size `sizeof(T)` returns the offset advanced by
the `sizeof(T)` bytes written. -/
theorem buffer_write_spec (buf value bytes : List Nat) (offset : Nat)
    (h : offset + value.length + 1 ≤ buf.length) :
    bufferWriteString buf value offset
        = (buf.take offset ++ value ++ [0] ++ buf.drop (offset + value.length + 1),
           offset + value.length + 1)
    ∧ bufferWriteVal buf bytes offset
        = (listWriteAt buf offset bytes, offset + bytes.length) := by
  refine ⟨?_, rfl⟩
  unfold bufferWriteString listWriteAt
  have hoff : offset ≤ buf.length := by omega
  have hlen : (buf.take offset).length = offset := by
    simp [List.length_take]; omega
  have htake :
      (buf.take offset ++ value ++ buf.drop (offset + value.length)).take
          (offset + value.length)
        = buf.take offset ++ value := by
    rw [List.append_assoc, List.take_append_eq_append_take,
      List.take_of_length_le (by omega : (buf.take offset).length ≤ offset + value.length),
      hlen]
    have h2 : offset + value.length - offset = value.length := by omega
    rw [h2, List.take_append_eq_append_take,
      List.take_of_length_le (le_refl value.length), Nat.sub_self,
      List.take_zero, List.append_nil]
  have hdrop :
      (buf.take offset ++ value ++ buf.drop (offset + value.length)).drop
          (offset + value.length + 1)
        = buf.drop (offset + value.length + 1) := by
    rw [List.append_assoc, List.drop_append_eq_append_drop,
      List.drop_of_length_le (by omega : (buf.take offset).length ≤ offset + value.length + 1),
      hlen, List.nil_append, List.drop_append_eq_append_drop,
      List.drop_of_length_le (by omega : value.length ≤ offset + value.length + 1 - offset),
      List.nil_append]
    have h1 : offset + value.length + 1 - offset - value.length = 1 := by omega
    rw [h1, List.drop_drop]
  simp only [htake, hdrop, List.length_cons, List.length_nil]

/-- Witness for C6: writing the two-character string `"AB"` (bytes
`[65, 66]`) at offset 1 of a 6-byte buffer, and a 4-byte value at the
same offset. -/
theorem buffer_write_spec_witness :
    bufferWriteString [9, 9, 9, 9, 9, 9] [65, 66] 1
        = ([9, 9, 9, 9, 9, 9].take 1 ++ [65, 66] ++ [0]
             ++ [9, 9, 9, 9, 9, 9].drop 4, 4)
    ∧ bufferWriteVal [9, 9, 9, 9, 9, 9] [1, 2, 3, 4] 1
        = (listWriteAt [9, 9, 9, 9, 9, 9] 1 [1, 2, 3, 4], 5) :=
  buffer_write_spec [9, 9, 9, 9, 9, 9] [65, 66] [1, 2, 3, 4] 1 (by decide)

/-! ## `VartTensorBuffer::data` (`buffers/vart_tensor.cpp`)

To translate a linear element offset into the index vector the VART
tensor-buffer API wants, `data(offset)` walks the tensor dimensions in
order: at position `k` the stride is the product of the dimensions after
`k`, the index is `offset / stride`, and `offset` is reduced by
`index * stride` (that is, to `offset % stride`). -/

/-- The index vector `VartTensorBuffer::data` computes from a linear
offset for a tensor of the given dimensions. -/
def vartIndices : List Nat → Nat → List Nat
  | [], _ => []
  | _d :: ds, off => off / ds.prod :: vartIndices ds (off % ds.prod)

/-- The linear offset an index vector denotes in row-major order over the
given dimensions: `sum over k of index[k] * product(dims[k+1..])`. -/
def rowMajorValue : List Nat → List Nat → Nat
  | _d :: ds, i :: is => i * ds.prod + rowMajorValue ds is
  | _, _ => 0

/-- Claim C7: for positive dimensions and `offset < product(dims)`, the
index vector computed by `VartTensorBuffer::data` is the row-major
mixed-radix decomposition of the offset: every index is below its
dimension, and the weighted sum over the strides recovers the offset
(which pins the decomposition down uniquely). -/
theorem vartIndices_spec (dims : List Nat) (off : Nat)
    (hpos : ∀ d ∈ dims, 0 < d) (hoff : off < dims.prod) :
    List.Forall₂ (fun i d => i < d) (vartIndices dims off) dims
    ∧ rowMajorValue dims (vartIndices dims off) = off := by
  induction dims generalizing off with
  | nil =>
    simp only [List.prod_nil, Nat.lt_one_iff] at hoff
    subst hoff
    exact ⟨List.Forall₂.nil, rfl⟩
  | cons d ds ih =>
    have hdpos : 0 < d := hpos d (List.mem_cons_self d ds)
    have hP : 0 < ds.prod :=
      List.prod_pos fun x hx => hpos x (List.mem_cons_of_mem d hx)
    rw [List.prod_cons] at hoff
    have hhead : off / ds.prod < d := by
      rw [Nat.div_lt_iff_lt_mul hP]
      exact hoff
    have hmod : off % ds.prod < ds.prod := Nat.mod_lt off hP
    obtain ⟨htail, hsum⟩ :=
      ih (off % ds.prod) (fun x hx => hpos x (List.mem_cons_of_mem d hx)) hmod
    refine ⟨List.Forall₂.cons hhead htail, ?_⟩
    show off / ds.prod * ds.prod + rowMajorValue ds (vartIndices ds (off % ds.prod)) = off
    rw [hsum, mul_comm, Nat.div_add_mod]

/-- Witness for C7: a `[2, 3, 4]` tensor at offset 17 decomposes to the
indices `[1, 1, 1]` with `1*12 + 1*4 + 1*1 = 17`. -/
theorem vartIndices_spec_witness :
    List.Forall₂ (fun i d => i < d) (vartIndices [2, 3, 4] 17) [2, 3, 4]
    ∧ rowMajorValue [2, 3, 4] (vartIndices [2, 3, 4] 17) = 17 :=
  vartIndices_spec [2, 3, 4] 17 (by decide) (by decide)

/-! ## `Batch` (`batching/batch.cpp`)

A `Batch` holds the batched requests, the paired input/output buffer
sets, and the per-request trace and start-time metadata.  The element
types are irrelevant to the container behaviour and stay parameters:
`ρ` requests, `β` buffer handles, `τ` traces, `μ` time points.
`getInputBuffers`/`getOutputBuffers` return `std::move(...)` of the
member vector, leaving it empty; `size()` asserts that the trace and
start-time counts match the request count and returns the latter, which
`Batch.sizeChecked` models by returning `none` exactly when an assertion
would fire. -/

/-- The `Batch` data, from `batching/batch.hpp`. -/
structure Batch (ρ β τ μ : Type) where
  requests : List ρ
  input_buffers : List β
  output_buffers : List β
  traces : List τ
  start_times : List μ
  deriving Repr

/-- `Batch::addRequest`: push the request. -/
def Batch.addRequest (b : Batch ρ β τ μ) (r : ρ) : Batch ρ β τ μ :=
  { b with requests := b.requests ++ [r] }

/-- `Batch::addTrace`: push the trace. -/
def Batch.addTrace (b : Batch ρ β τ μ) (t : τ) : Batch ρ β τ μ :=
  { b with traces := b.traces ++ [t] }

/-- `Batch::addTime`: push the start timestamp. -/
def Batch.addTime (b : Batch ρ β τ μ) (m : μ) : Batch ρ β τ μ :=
  { b with start_times := b.start_times ++ [m] }

/-- `Batch::setBuffers`: move the two buffer sets in. -/
def Batch.setBuffers (b : Batch ρ β τ μ) (ins outs : List β) : Batch ρ β τ μ :=
  { b with input_buffers := ins, output_buffers := outs }

/-- `Batch::getInputBuffers`: `return std::move(input_buffers_)` — yields
the held buffers and leaves the member empty. -/
def Batch.getInputBuffers (b : Batch ρ β τ μ) : List β × Batch ρ β τ μ :=
  (b.input_buffers, { b with input_buffers := [] })

/-- `Batch::getOutputBuffers`: `return std::move(output_buffers_)`. -/
def Batch.getOutputBuffers (b : Batch ρ β τ μ) : List β × Batch ρ β τ μ :=
  (b.output_buffers, { b with output_buffers := [] })

/-- `Batch::getInputSize`. -/
def Batch.getInputSize (b : Batch ρ β τ μ) : Nat :=
  b.input_buffers.length

/-- `Batch::getOutputSize`. -/
def Batch.getOutputSize (b : Batch ρ β τ μ) : Nat :=
  b.output_buffers.length

/-- `Batch::size` with its two assertions (tracing and metrics enabled):
`none` when an assertion fires, otherwise the request count. -/
def Batch.sizeChecked (b : Batch ρ β τ μ) : Option Nat :=
  if b.requests.length = b.traces.length ∧ b.requests.length = b.start_times.length
  then some b.requests.length
  else none

/-- The batch with nothing added yet. -/
def Batch.emptyBatch : Batch ρ β τ μ :=
  ⟨[], [], [], [], []⟩

/-- The mutating calls a batch is built from. -/
inductive BatchOp (ρ β τ μ : Type) where
  | addRequest (r : ρ)
  | addTrace (t : τ)
  | addTime (m : μ)
  | setBuffers (ins outs : List β)

/-- Apply one mutating call. -/
def Batch.applyOp (b : Batch ρ β τ μ) : BatchOp ρ β τ μ → Batch ρ β τ μ
  | .addRequest r => b.addRequest r
  | .addTrace t => b.addTrace t
  | .addTime m => b.addTime m
  | .setBuffers ins outs => b.setBuffers ins outs

/-- Apply a sequence of mutating calls in order. -/
def Batch.applyOps (ops : List (BatchOp ρ β τ μ)) (b : Batch ρ β τ μ) :
    Batch ρ β τ μ :=
  ops.foldl Batch.applyOp b

/-- The number of `addRequest` calls in a call sequence. -/
def countAddRequest (ops : List (BatchOp ρ β τ μ)) : Nat :=
  ops.countP fun op => match op with | .addRequest _ => true | _ => false

/-- The number of `addTrace` calls in a call sequence. -/
def countAddTrace (ops : List (BatchOp ρ β τ μ)) : Nat :=
  ops.countP fun op => match op with | .addTrace _ => true | _ => false

/-- The number of `addTime` calls in a call sequence. -/
def countAddTime (ops : List (BatchOp ρ β τ μ)) : Nat :=
  ops.countP fun op => match op with | .addTime _ => true | _ => false

theorem applyOps_requests_length (ops : List (BatchOp ρ β τ μ)) (b : Batch ρ β τ μ) :
    (Batch.applyOps ops b).requests.length
      = b.requests.length + countAddRequest ops := by
  induction ops generalizing b with
  | nil => simp [Batch.applyOps, countAddRequest]
  | cons op rest ih =>
    have hstep : Batch.applyOps (op :: rest) b = Batch.applyOps rest (b.applyOp op) := rfl
    rw [hstep, ih]
    cases op <;>
      simp [Batch.applyOp, Batch.addRequest, Batch.addTrace, Batch.addTime,
        Batch.setBuffers, countAddRequest, List.countP_cons] <;> omega

theorem applyOps_traces_length (ops : List (BatchOp ρ β τ μ)) (b : Batch ρ β τ μ) :
    (Batch.applyOps ops b).traces.length
      = b.traces.length + countAddTrace ops := by
  induction ops generalizing b with
  | nil => simp [Batch.applyOps, countAddTrace]
  | cons op rest ih =>
    have hstep : Batch.applyOps (op :: rest) b = Batch.applyOps rest (b.applyOp op) := rfl
    rw [hstep, ih]
    cases op <;>
      simp [Batch.applyOp, Batch.addRequest, Batch.addTrace, Batch.addTime,
        Batch.setBuffers, countAddTrace, List.countP_cons] <;> omega

theorem applyOps_times_length (ops : List (BatchOp ρ β τ μ)) (b : Batch ρ β τ μ) :
    (Batch.applyOps ops b).start_times.length
      = b.start_times.length + countAddTime ops := by
  induction ops generalizing b with
  | nil => simp [Batch.applyOps, countAddTime]
  | cons op rest ih =>
    have hstep : Batch.applyOps (op :: rest) b = Batch.applyOps rest (b.applyOp op) := rfl
    rw [hstep, ih]
    cases op <;>
      simp [Batch.applyOp, Batch.addRequest, Batch.addTrace, Batch.addTime,
        Batch.setBuffers, countAddTime, List.countP_cons] <;> omega

/-- Claim C8: on every batch built by a call sequence with as many
`addTrace` calls as `addRequest` calls and as many `addTime` calls as
`addRequest` calls, the assertions in `Batch::size` hold (the checked size
is not the error `none`) and `Batch::size` returns the number of requests
added. -/
theorem batch_size_assertions (ρ β τ μ : Type) (ops : List (BatchOp ρ β τ μ))
    (htr : countAddTrace ops = countAddRequest ops)
    (htm : countAddTime ops = countAddRequest ops) :
    (Batch.applyOps ops Batch.emptyBatch).sizeChecked = some (countAddRequest ops) := by
  have h1 : (Batch.applyOps ops Batch.emptyBatch).requests.length
      = countAddRequest ops := by
    rw [applyOps_requests_length]; simp [Batch.emptyBatch]
  have h2 : (Batch.applyOps ops Batch.emptyBatch).traces.length
      = countAddTrace ops := by
    rw [applyOps_traces_length]; simp [Batch.emptyBatch]
  have h3 : (Batch.applyOps ops Batch.emptyBatch).start_times.length
      = countAddTime ops := by
    rw [applyOps_times_length]; simp [Batch.emptyBatch]
  simp [Batch.sizeChecked, h1, h2, h3, htr, htm]

/-- Witness for C8: one request, one trace, one time; the checked size is
`some 1`. -/
theorem batch_size_assertions_witness :
    (Batch.applyOps
        [BatchOp.addRequest 7, BatchOp.addTrace "t", BatchOp.addTime 5,
         BatchOp.setBuffers ([true]) ([false])]
        Batch.emptyBatch).sizeChecked
      = some (countAddRequest
          [BatchOp.addRequest 7, BatchOp.addTrace "t", BatchOp.addTime 5,
           BatchOp.setBuffers ([true]) ([false])]) :=
  batch_size_assertions Nat Bool String Nat
    [BatchOp.addRequest 7, BatchOp.addTrace "t", BatchOp.addTime 5,
     BatchOp.setBuffers ([true]) ([false])]
    (by rfl) (by rfl)

/-- Claim C9: `Batch::getInputBuffers` and `Batch::getOutputBuffers` are
moving getters.  After `setBuffers ins outs`, `getInputBuffers` yields
exactly `ins`, leaves the input buffer set empty (`getInputSize` is 0) and
the requests, output buffers, traces and start times unchanged;
symmetrically `getOutputBuffers` yields `outs` and empties only the output
buffer set. -/
theorem batch_get_buffers_move (ρ β τ μ : Type) (b : Batch ρ β τ μ)
    (ins outs : List β) :
    ((b.setBuffers ins outs).getInputBuffers.1 = ins
      ∧ (b.setBuffers ins outs).getInputBuffers.2.getInputSize = 0
      ∧ (b.setBuffers ins outs).getInputBuffers.2.requests
          = (b.setBuffers ins outs).requests
      ∧ (b.setBuffers ins outs).getInputBuffers.2.output_buffers
          = (b.setBuffers ins outs).output_buffers
      ∧ (b.setBuffers ins outs).getInputBuffers.2.traces
          = (b.setBuffers ins outs).traces
      ∧ (b.setBuffers ins outs).getInputBuffers.2.start_times
          = (b.setBuffers ins outs).start_times)
    ∧ ((b.setBuffers ins outs).getOutputBuffers.1 = outs
      ∧ (b.setBuffers ins outs).getOutputBuffers.2.getOutputSize = 0
      ∧ (b.setBuffers ins outs).getOutputBuffers.2.requests
          = (b.setBuffers ins outs).requests
      ∧ (b.setBuffers ins outs).getOutputBuffers.2.input_buffers
          = (b.setBuffers ins outs).input_buffers
      ∧ (b.setBuffers ins outs).getOutputBuffers.2.traces
          = (b.setBuffers ins outs).traces
      ∧ (b.setBuffers ins outs).getOutputBuffers.2.start_times
          = (b.setBuffers ins outs).start_times) :=
  ⟨⟨rfl, rfl, rfl, rfl, rfl, rfl⟩, ⟨rfl, rfl, rfl, rfl, rfl, rfl⟩⟩

end AmdInfer
